import Mathlib

/-!
Verification of the medidiagnose inference engine.

This file is a shallow embedding of the inference subsystem of the
medidiagnose repository: the knowledge-base data model, the forward and
backward chaining strategies, the knowledge-base repository validation,
the diagnosis orchestration service with its persistence sink, and the
explanation reconstruction path.  Python floats are modelled by exact
rationals, Python sets of symptom ids by finite sets of naturals, and
database tables by lists held in their default model ordering.  Wall
clock time (the execution_time_ms measurements) is modelled as zero, and
date-time stamps as natural-number ticks of a logical clock.
-/

namespace Medidiagnose

/-- A row of the SymptomModel table (knowledge_base/models.py): primary
key and unique name.  Category and severity weight take no part in
inference and are omitted.  The list holding these rows is understood to
be in the default model ordering (category, then name). -/
structure Symptom where
  id : Nat
  name : String
  deriving DecidableEq

/-- A row of the DiseaseModel table (knowledge_base/models.py): primary
key and unique name.  Description, treatments and urgency take no part
in inference and are omitted. -/
structure Disease where
  id : Nat
  name : String
  deriving DecidableEq

/-- One piece of an explanation template string: literal text, the
named placeholder for the matched symptom list, or the named placeholder
for the disease name.  This models a Python format string over the two
documented placeholders of DiagnosticRuleModel.explanation_template. -/
inductive TPart where
  | lit (s : String)
  | symptomsHole
  | diseaseHole
  deriving DecidableEq

/-- A row of the DiagnosticRuleModel table (knowledge_base/models.py):
name, required symptom ids (the if_symptoms many-to-many), the concluded
disease (then_disease, with its name select_related), the confidence
factor (a 0..100 integer field) and the explanation template. -/
structure Rule where
  id : Nat
  name : String
  if_symptoms : List Nat
  confidence_factor : Nat
  then_disease : Disease
  explanation_template : List TPart
  deriving DecidableEq

/-- The knowledge base: the symptom table and the diagnostic rule table,
each in its default model ordering (symptoms by category and name, rules
by name), which is the order querysets iterate them. -/
structure KnowledgeBase where
  symptoms : List Symptom
  rules : List Rule
  deriving DecidableEq

/-- Rendering of an explanation template with the matched symptom list
and disease name substituted, modelling str.format in
forward_chaining.py line 121 and backward_chaining.py line 152. -/
def renderTemplate (t : List TPart) (syms dis : String) : String :=
  t.foldl
    (fun acc p =>
      acc ++ match p with
        | .lit s => s
        | .symptomsHole => syms
        | .diseaseHole => dis)
    ("")

/-- Rounding to four decimal places, modelling the Python round(x, 4)
calls on reported scores.  (Python rounds ties of binary floats; on the
exact rationals of this embedding we use the mathematical nearest
integer, which agrees on all the values the claims touch.) -/
def round4 (q : ℚ) : ℚ :=
  ((round (q * 10000) : ℤ) : ℚ) / 10000

instance {ε α : Type} [DecidableEq ε] [DecidableEq α] :
    DecidableEq (Except ε α) := fun a b =>
  match a, b with
  | .ok x, .ok y =>
      if h : x = y then isTrue (by rw [h])
      else isFalse (fun hc => by cases hc; exact h rfl)
  | .error x, .error y =>
      if h : x = y then isTrue (by rw [h])
      else isFalse (fun hc => by cases hc; exact h rfl)
  | .ok _, .error _ => isFalse (fun hc => by cases hc)
  | .error _, .ok _ => isFalse (fun hc => by cases hc)

/-- The names of the symptoms whose ids lie in the given set, in symptom
table order, modelling SymptomModel.objects.filter(id__in=ids) value
lists in forward_chaining.py lines 108-112 and backward_chaining.py
lines 117-133. -/
def symptomNames (kb : KnowledgeBase) (ids : Finset Nat) : List String :=
  (kb.symptoms.filter (fun s => decide (s.id ∈ ids))).map Symptom.name

/-- One entry of the rules_fired list built by forward chaining
(forward_chaining.py lines 114-125). -/
structure RuleRecord where
  rule_id : Nat
  rule_name : String
  matched_symptoms : List String
  match_ratio : ℚ
  confidence_factor : Nat
  final_confidence : ℚ
  explanation : String
  deriving DecidableEq

/-- One aggregated per-disease entry of forward chaining
(forward_chaining.py lines 130-142).  During aggregation the
final_confidence field holds the un-rounded running maximum; it is
rounded once ranking is done (line 164). -/
structure DiseaseScore where
  disease_id : Nat
  disease_name : String
  final_confidence : ℚ
  matching_rules : List RuleRecord
  deriving DecidableEq

/-- The loop state of forward chaining: the fired-rule list, the
per-disease aggregation in first-encounter order (a Python dict keyed by
disease id preserves insertion order), and the evaluation counter. -/
structure ForwardState where
  rules_fired : List RuleRecord
  disease_scores : List DiseaseScore
  total_evaluated : Nat
  deriving DecidableEq

/-- The result dictionary of ForwardChainingStrategy.execute_inference
(forward_chaining.py lines 175-181). -/
structure ForwardResult where
  strategy : String
  diseases : List DiseaseScore
  rules_fired : List RuleRecord
  total_rules_evaluated : Nat
  execution_time_ms : Nat
  deriving DecidableEq

/-- The un-rounded match ratio of a rule against the reported set:
len(matched) / len(required) (forward_chaining.py line 104). -/
def matchRatioOf (reported : Finset Nat) (rule : Rule) : ℚ :=
  (((reported ∩ rule.if_symptoms.toFinset).card : ℚ)) /
    ((rule.if_symptoms.toFinset.card : ℚ))

/-- The un-rounded final confidence of a rule: match_ratio *
(confidence_factor / 100) (forward_chaining.py line 105). -/
def finalConfidenceOf (reported : Finset Nat) (rule : Rule) : ℚ :=
  matchRatioOf reported rule * ((rule.confidence_factor : ℚ) / 100)

/-- The rule_record dictionary built for a firing rule
(forward_chaining.py lines 114-125): reported scores are rounded to four
decimal places and the explanation template is rendered with the matched
symptom names and the disease name. -/
def mkRuleRecord (kb : KnowledgeBase) (reported : Finset Nat) (rule : Rule) :
    RuleRecord :=
  let matched_ids := reported ∩ rule.if_symptoms.toFinset
  let matched_symptom_names := symptomNames kb matched_ids
  { rule_id := rule.id
    rule_name := rule.name
    matched_symptoms := matched_symptom_names
    match_ratio := round4 (matchRatioOf reported rule)
    confidence_factor := rule.confidence_factor
    final_confidence := round4 (finalConfidenceOf reported rule)
    explanation :=
      renderTemplate rule.explanation_template
        (String.intercalate (", ") matched_symptom_names)
        rule.then_disease.name }

/-- Per-disease aggregation (forward_chaining.py lines 128-142): a new
disease is appended with the firing rule as its first entry; an already
seen disease gets the rule record appended and its confidence replaced
only when the new final confidence is strictly greater. -/
def updateScores (d : Disease) (rr : RuleRecord) (fc : ℚ) :
    List DiseaseScore → List DiseaseScore
  | [] =>
      [{ disease_id := d.id
         disease_name := d.name
         final_confidence := fc
         matching_rules := [rr] }]
  | s :: rest =>
      if s.disease_id = d.id then
        { s with
          matching_rules := s.matching_rules ++ [rr]
          final_confidence :=
            if s.final_confidence < fc then fc else s.final_confidence } :: rest
      else
        s :: updateScores d rr fc rest

/-- One iteration of the forward chaining rule loop
(forward_chaining.py lines 91-142): count the rule, skip it when its
required set does not meet the reported set, otherwise record it and
aggregate it into its disease. -/
def evalRule (kb : KnowledgeBase) (reported : Finset Nat)
    (st : ForwardState) (rule : Rule) : ForwardState :=
  if reported ∩ rule.if_symptoms.toFinset = ∅ then
    { st with total_evaluated := st.total_evaluated + 1 }
  else
    { rules_fired := st.rules_fired ++ [mkRuleRecord kb reported rule]
      disease_scores :=
        updateScores rule.then_disease (mkRuleRecord kb reported rule)
          (finalConfidenceOf reported rule) st.disease_scores
      total_evaluated := st.total_evaluated + 1 }

/-- The forward chaining loop over the whole rule table, started from
the empty state. -/
def forwardState (kb : KnowledgeBase) (symptoms : List Nat) : ForwardState :=
  kb.rules.foldl (evalRule kb symptoms.toFinset)
    { rules_fired := [], disease_scores := [], total_evaluated := 0 }

/-- Stable insertion of a disease entry into a list ranked by confidence
descending: the entry passes every strictly greater earlier entry and
stops before the first entry with confidence less than or equal to its
own, so equal confidences keep their relative order. -/
def insertDesc (x : DiseaseScore) : List DiseaseScore → List DiseaseScore
  | [] => [x]
  | y :: ys =>
      if y.final_confidence ≤ x.final_confidence then x :: y :: ys
      else y :: insertDesc x ys

/-- Stable sort by final confidence descending, modelling Python sorted
with key final_confidence and reverse=True (forward_chaining.py lines
156-160); Python sorted is stable. -/
def sortDesc : List DiseaseScore → List DiseaseScore
  | [] => []
  | x :: xs => insertDesc x (sortDesc xs)

/-- Rounding of the top-level per-disease confidence after ranking
(forward_chaining.py lines 163-164). -/
def roundDisease (d : DiseaseScore) : DiseaseScore :=
  { d with final_confidence := round4 d.final_confidence }

/-- The errors raised by the inference engine service layer
(exceptions.py): InvalidSymptomError carries the missing symptom ids,
NoMatchingRuleError carries the submitted symptom ids (and nothing
else), and the base InferenceEngineError carries a message together with
the original error text placed in its details. -/
inductive EngineError where
  | invalidSymptom (missing_ids : List Nat)
  | noMatchingRule (symptom_ids : List Nat)
  | engineFailure (message : String) (original_error : String)
  deriving DecidableEq

/-- An error escaping a strategy execute_inference call: either an
InferenceEngineError subclass, or the ValueError backward chaining
raises when no target disease id was supplied. -/
inductive StratError where
  | engine (e : EngineError)
  | valueError (msg : String)
  deriving DecidableEq

/-- ForwardChainingStrategy.execute_inference (forward_chaining.py lines
44-181): run the rule loop, fail with NoMatchingRuleError carrying the
submitted symptom ids when nothing fired, otherwise rank diseases by
confidence descending and round the top-level confidences. -/
def forwardExecute (kb : KnowledgeBase) (symptoms : List Nat) :
    Except StratError ForwardResult :=
  let st := forwardState kb symptoms
  if st.rules_fired = [] then
    .error (.engine (.noMatchingRule symptoms))
  else
    .ok
      { strategy := ("FORWARD_CHAINING")
        diseases := (sortDesc st.disease_scores).map roundDisease
        rules_fired := st.rules_fired
        total_rules_evaluated := st.total_evaluated
        execution_time_ms := 0 }

/-- One entry of the rules_evaluated list of backward chaining
(backward_chaining.py lines 135-144). -/
structure BackRuleEval where
  rule_id : Nat
  rule_name : String
  confidence_factor : Nat
  required_symptoms : List String
  matched_symptoms : List String
  missing_symptoms : List String
  satisfaction_score : ℚ
  is_fully_satisfied : Bool
  deriving DecidableEq

/-- One entry of the rules_fired list of backward chaining
(backward_chaining.py lines 148-156). -/
structure BackFiredRule where
  rule_id : Nat
  rule_name : String
  satisfaction_score : ℚ
  explanation : String
  deriving DecidableEq

/-- The result dictionary of BackwardChainingStrategy.execute_inference
(backward_chaining.py lines 188-197). -/
structure BackwardResult where
  strategy : String
  target_disease_id : Nat
  target_disease_name : String
  rules_evaluated : List BackRuleEval
  best_satisfaction_score : ℚ
  overall_missing_symptoms : List String
  rules_fired : List BackFiredRule
  execution_time_ms : Nat
  deriving DecidableEq

/-- KnowledgeBaseRepository.get_rules_by_disease
(knowledge_base_repository.py lines 54-71): the rules concluding the
given disease, in rule table order. -/
def getRulesByDisease (kb : KnowledgeBase) (disease_id : Nat) : List Rule :=
  kb.rules.filter (fun r => r.then_disease.id == disease_id)

/-- The loop state of backward chaining: evaluation records, fired
records, the running union of missing symptom ids, and the running best
satisfaction score. -/
structure BackwardState where
  evaluated : List BackRuleEval
  rules_fired : List BackFiredRule
  all_missing : Finset Nat
  best_score : ℚ
  deriving DecidableEq

/-- One iteration of the backward chaining rule loop
(backward_chaining.py lines 105-161): evaluate the rule against the
reported set, always record the evaluation, record a fired entry only
when satisfaction is positive, extend the missing union, and raise the
best score when beaten. -/
def backEvalRule (kb : KnowledgeBase) (reported : Finset Nat)
    (target_disease_name : String) (st : BackwardState) (rule : Rule) :
    BackwardState :=
  let required_ids := rule.if_symptoms.toFinset
  let matched_ids := reported ∩ required_ids
  let missing_ids := required_ids \ reported
  let satisfaction : ℚ :=
    if required_ids ≠ ∅ then ((matched_ids.card : ℚ)) / ((required_ids.card : ℚ))
    else 0
  let matched_names := if matched_ids ≠ ∅ then symptomNames kb matched_ids else []
  let missing_names := if missing_ids ≠ ∅ then symptomNames kb missing_ids else []
  let required_names := symptomNames kb required_ids
  let rule_result : BackRuleEval :=
    { rule_id := rule.id
      rule_name := rule.name
      confidence_factor := rule.confidence_factor
      required_symptoms := required_names
      matched_symptoms := matched_names
      missing_symptoms := missing_names
      satisfaction_score := round4 satisfaction
      is_fully_satisfied := missing_ids.card == 0 }
  let st :=
    { st with
      evaluated := st.evaluated ++ [rule_result]
      rules_fired :=
        if 0 < satisfaction then
          st.rules_fired ++
            [{ rule_id := rule.id
               rule_name := rule.name
               satisfaction_score := round4 satisfaction
               explanation :=
                 renderTemplate rule.explanation_template
                   (String.intercalate (", ") matched_names)
                   target_disease_name }]
        else st.rules_fired
      all_missing := st.all_missing ∪ missing_ids }
  if st.best_score < satisfaction then { st with best_score := satisfaction }
  else st

/-- BackwardChainingStrategy.execute_inference (backward_chaining.py
lines 43-197): fail with ValueError when no target disease id was
supplied, fail with NoMatchingRuleError carrying only the submitted
symptom ids when the target disease has no rules at all, otherwise
evaluate every rule for the target disease. -/
def backwardExecute (kb : KnowledgeBase) (symptoms : List Nat)
    (target_disease_id : Option Nat) : Except StratError BackwardResult :=
  match target_disease_id with
  | none => .error (.valueError ("target_disease_id is required for backward chaining"))
  | some tid =>
    match getRulesByDisease kb tid with
    | [] => .error (.engine (.noMatchingRule symptoms))
    | r0 :: rest =>
      let target_disease_name := r0.then_disease.name
      let st :=
        (r0 :: rest).foldl (backEvalRule kb symptoms.toFinset target_disease_name)
          { evaluated := [], rules_fired := [], all_missing := ∅, best_score := 0 }
      .ok
        { strategy := ("BACKWARD_CHAINING")
          target_disease_id := tid
          target_disease_name := target_disease_name
          rules_evaluated := st.evaluated
          best_satisfaction_score := round4 st.best_score
          overall_missing_symptoms :=
            if st.all_missing ≠ ∅ then symptomNames kb st.all_missing else []
          rules_fired := st.rules_fired
          execution_time_ms := 0 }

/-- KnowledgeBaseRepository.validate_symptom_existence
(knowledge_base_repository.py lines 94-119): collect the existing ids
among the supplied ones, then keep, in the original submission order,
those that were not found; all exist when nothing is missing. -/
def validate_symptom_existence (kb : KnowledgeBase) (symptom_ids : List Nat) :
    Bool × List Nat :=
  let existing_ids : Finset Nat :=
    ((kb.symptoms.filter (fun s => symptom_ids.contains s.id)).map Symptom.id).toFinset
  let missing : List Nat :=
    symptom_ids.filter (fun sid => decide (sid ∉ existing_ids))
  (missing.length == 0, missing)

/-- The two concrete inference strategies of the repository
(forward_chaining.py, backward_chaining.py), selected on the diagnosis
service by construction or set_strategy. -/
inductive Strategy where
  | forwardChaining
  | backwardChaining
  deriving DecidableEq

/-- The result returned by the configured strategy to the diagnosis
service: one of the two result dictionaries. -/
inductive StratResult where
  | forward (r : ForwardResult)
  | backward (r : BackwardResult)
  deriving DecidableEq

/-- Dispatch of execute_inference through the strategy interface
(base_strategy.py, diagnosis_service.py line 101). -/
def Strategy.execute : Strategy → KnowledgeBase → List Nat → Option Nat →
    Except StratError StratResult
  | .forwardChaining, kb, symptoms, _ =>
      (forwardExecute kb symptoms).map StratResult.forward
  | .backwardChaining, kb, symptoms, target =>
      (backwardExecute kb symptoms target).map StratResult.backward

/-- A symptom snapshot entry of a persisted case
(diagnosis_service.py lines 151-154). -/
structure SymptomSnapshot where
  id : Nat
  name : String
  deriving DecidableEq

/-- An inferred-result entry of a persisted case
(diagnosis_service.py lines 157-164): note the confidence key here is
named confidence, not final_confidence. -/
structure InferredResult where
  disease_id : Nat
  disease_name : String
  confidence : ℚ
  deriving DecidableEq

/-- A rules-trace entry of a persisted case
(diagnosis_service.py lines 167-173). -/
structure RuleTraceEntry where
  rule_id : Nat
  explanation : String
  deriving DecidableEq

/-- A persisted PatientCaseModel row (patient_cases/models.py).  The
auto-set session_date is modelled by the tick of a logical clock. -/
structure PatientCase where
  id : Nat
  patient_identifier : String
  session_date : Nat
  reported_symptoms_snapshot : List SymptomSnapshot
  inferred_results : List InferredResult
  applied_rules_trace : List RuleTraceEntry
  deriving DecidableEq

/-- The rules_fired JSON payload stored on an inference trace: the full
fired-rules list of whichever strategy produced the result. -/
inductive FiredPayload where
  | fwd (rs : List RuleRecord)
  | bwd (rs : List BackFiredRule)
  deriving DecidableEq

/-- Length of the stored fired-rules payload (len(trace.rules_fired)). -/
def FiredPayload.size : FiredPayload → Nat
  | .fwd rs => rs.length
  | .bwd rs => rs.length

/-- A persisted InferenceTraceModel row (explanations/models.py).  The
auto-set execution_timestamp is modelled by the tick of a logical
clock. -/
structure InferenceTrace where
  patient_case : Nat
  strategy_used : String
  rules_fired : FiredPayload
  confidence_scores_calculated : List (String × ℚ)
  execution_time_ms : Nat
  execution_timestamp : Nat
  deriving DecidableEq

/-- The persistence sink state: the case table, the trace table, the
next primary key, and a logical clock that stamps session dates and
execution timestamps in strictly increasing order. -/
structure SinkState where
  cases : List PatientCase
  traces : List InferenceTrace
  nextCaseId : Nat
  clock : Nat
  deriving DecidableEq

/-- result.get("diseases", []) as read by the persistence step
(diagnosis_service.py lines 163, 186): only forward results carry the
diseases key, a backward result yields the default empty list. -/
def StratResult.diseasesOrDefault : StratResult → List DiseaseScore
  | .forward r => r.diseases
  | .backward _ => []

/-- result.get("rules_fired", []) as stored on the trace
(diagnosis_service.py line 192). -/
def StratResult.firedPayload : StratResult → FiredPayload
  | .forward r => .fwd r.rules_fired
  | .backward r => .bwd r.rules_fired

/-- The per-entry rule trace stored on the case (diagnosis_service.py
lines 167-173): rule id and rendered explanation of each fired rule. -/
def FiredPayload.ruleTraceEntries : FiredPayload → List RuleTraceEntry
  | .fwd rs => rs.map (fun r => { rule_id := r.rule_id, explanation := r.explanation })
  | .bwd rs => rs.map (fun r => { rule_id := r.rule_id, explanation := r.explanation })

/-- result.get("strategy", "FORWARD_CHAINING")
(diagnosis_service.py line 183); both result dictionaries carry the
key. -/
def StratResult.strategyLabel : StratResult → String
  | .forward r => r.strategy
  | .backward r => r.strategy

/-- result.get("execution_time_ms", 0) (diagnosis_service.py line
194). -/
def StratResult.executionTimeMs : StratResult → Nat
  | .forward r => r.execution_time_ms
  | .backward r => r.execution_time_ms

/-- Insertion into a Python dict modelled as an association list in
insertion order: an existing key is overwritten in place, a new key is
appended. -/
def dictInsert (m : List (String × ℚ)) (k : String) (v : ℚ) :
    List (String × ℚ) :=
  if m.any (fun p => p.1 == k) then
    m.map (fun p => if p.1 == k then (k, v) else p)
  else m ++ [(k, v)]

/-- DiagnosisService._persist_result (diagnosis_service.py lines
131-198): build the symptom snapshot, the collapsed inferred results,
and the collapsed rule trace; create one PatientCaseModel row and one
linked InferenceTraceModel row; return the new case. -/
def persist_result (kb : KnowledgeBase) (sink : SinkState)
    (result : StratResult) (patient_id : String) (symptoms : List Nat) :
    PatientCase × SinkState :=
  let symptoms_snapshot : List SymptomSnapshot :=
    (kb.symptoms.filter (fun s => symptoms.contains s.id)).map
      (fun s => { id := s.id, name := s.name })
  let inferred : List InferredResult :=
    result.diseasesOrDefault.map
      (fun d =>
        { disease_id := d.disease_id
          disease_name := d.disease_name
          confidence := d.final_confidence })
  let pcase : PatientCase :=
    { id := sink.nextCaseId
      patient_identifier := patient_id
      session_date := sink.clock
      reported_symptoms_snapshot := symptoms_snapshot
      inferred_results := inferred
      applied_rules_trace := result.firedPayload.ruleTraceEntries }
  let confidence_map : List (String × ℚ) :=
    result.diseasesOrDefault.foldl
      (fun m d => dictInsert m d.disease_name d.final_confidence) []
  let tr : InferenceTrace :=
    { patient_case := pcase.id
      strategy_used := result.strategyLabel
      rules_fired := result.firedPayload
      confidence_scores_calculated := confidence_map
      execution_time_ms := result.executionTimeMs
      execution_timestamp := sink.clock }
  (pcase,
    { cases := sink.cases ++ [pcase]
      traces := sink.traces ++ [tr]
      nextCaseId := sink.nextCaseId + 1
      clock := sink.clock + 1 })

/-- The successful return value of DiagnosisService.diagnose: the
strategy result with the persisted case id attached
(diagnosis_service.py line 113). -/
structure DiagnoseOk where
  result : StratResult
  case_id : Nat
  deriving DecidableEq

/-- DiagnosisService.diagnose (diagnosis_service.py lines 63-129):
validate the symptom ids and fail with InvalidSymptomError carrying the
missing ids before any inference; run the configured strategy;
InferenceEngineError subclasses raised by the strategy propagate
unchanged while any other exception (the backward ValueError) is wrapped
into a generic engine failure; on success persist exactly one case and
one linked trace and attach the case id.  The resulting sink state is
returned alongside; on every failure it is the unchanged input sink. -/
def diagnose (strat : Strategy) (kb : KnowledgeBase) (sink : SinkState)
    (symptoms : List Nat) (patient_id : String)
    (target_disease_id : Option Nat) :
    Except EngineError DiagnoseOk × SinkState :=
  let v := validate_symptom_existence kb symptoms
  if v.1 = false then
    (.error (.invalidSymptom v.2), sink)
  else
    match strat.execute kb symptoms target_disease_id with
    | .error (.engine e) => (.error e, sink)
    | .error (.valueError msg) =>
        (.error (.engineFailure ("An unexpected error occurred during diagnosis.") msg),
          sink)
    | .ok result =>
        let pr := persist_result kb sink result patient_id symptoms
        (.ok { result := result, case_id := pr.1.id }, pr.2)

/-- The minimal result dictionary rebuilt by
DiagnosisService.get_explanation from the persisted case and trace
(diagnosis_service.py lines 234-241).  Its diseases key holds the
collapsed InferredResult entries of the case (whose confidence key is
named confidence), and total_rules_evaluated is recomputed as the length
of the stored fired-rules payload. -/
structure Reconstructed where
  strategy : String
  diseases : List InferredResult
  rules_fired : FiredPayload
  execution_time_ms : Nat
  total_rules_evaluated : Nat
  deriving DecidableEq

/-- The reconstruction step of get_explanation (diagnosis_service.py
lines 234-241). -/
def reconstructResult (pcase : PatientCase) (tr : InferenceTrace) :
    Reconstructed :=
  { strategy := tr.strategy_used
    diseases := pcase.inferred_results
    rules_fired := tr.rules_fired
    execution_time_ms := tr.execution_time_ms
    total_rules_evaluated := tr.rules_fired.size }

/-- The fixed header lines of the forward chaining report
(forward_chaining.py lines 192-200) as read off a reconstructed result:
every key the header reads is present on the reconstruction. -/
def forwardReportLines (result : Reconstructed) : List String :=
  [("=== forward chaining diagnosis report ===")
  , ("strategy: ") ++ result.strategy
  , ("total rules evaluated: ") ++ toString result.total_rules_evaluated
  , ("rules fired: ") ++ toString result.rules_fired.size
  , ("execution time: ") ++ toString result.execution_time_ms ++ ("ms")
  , ("")
  , ("--- ranked diseases ---")]

/-- ForwardChainingStrategy.explain_result applied to a reconstructed
result (forward_chaining.py lines 183-213).  The per-disease loop begins
by reading the key final_confidence from each disease entry (line 203),
but the disease entries of a reconstructed result are the persisted
InferredResult dictionaries, which carry the key confidence instead; so
the first loop iteration raises KeyError final_confidence, and the
report is only produced when the stored disease list is empty. -/
def forwardExplainReconstructed (result : Reconstructed) :
    Except String String :=
  match result.diseases with
  | [] => .ok (String.intercalate ("\n") (forwardReportLines result))
  | _ :: _ => .error ("final_confidence")

/-- BackwardChainingStrategy.explain_result applied to a reconstructed
result (backward_chaining.py lines 199-236).  A reconstructed result
carries none of the backward-specific keys, all of which are read with
defaults: target_disease_name defaults to N/A, best_satisfaction_score
to 0 (printed as 0.0 percent), overall_missing_symptoms to the empty
list (taking the all-present branch), and rules_evaluated to the empty
list (an empty per-rule section).  Only execution_time_ms comes from the
stored trace. -/
def backwardExplainReconstructed (result : Reconstructed) :
    Except String String :=
  .ok
    (String.intercalate ("\n")
      [("=== backward chaining verification report ===")
      , ("target disease: N/A")
      , ("best satisfaction score: 0.0%")
      , ("execution time: ") ++ toString result.execution_time_ms ++ ("ms")
      , ("")
      , ("all required symptoms are present for at least one rule")
      , ("")
      , ("--- rules evaluated ---")])

/-- Dispatch of explain_result on the strategy currently configured on
the service (diagnosis_service.py line 251). -/
def Strategy.explainReconstructed : Strategy → Reconstructed → Except String String
  | .forwardChaining, r => forwardExplainReconstructed r
  | .backwardChaining, r => backwardExplainReconstructed r

/-- The errors get_explanation can produce: the engine errors raised
when the case or trace is absent (diagnosis_service.py lines 218-232),
or an uncaught KeyError escaping explain_result. -/
inductive ExplainError where
  | caseNotFound (case_id : Nat)
  | traceNotFound (case_id : Nat)
  | keyError (key : String)
  deriving DecidableEq

/-- PatientCaseModel.objects.get(pk=case_id) (diagnosis_service.py line
217). -/
def findCase (sink : SinkState) (case_id : Nat) : Option PatientCase :=
  sink.cases.find? (fun c => c.id == case_id)

/-- case.inference_logs.order_by("-execution_timestamp").first()
(diagnosis_service.py lines 224-226): among the traces of the case, the
one with the greatest execution timestamp (the sink clock stamps traces
in strictly increasing order, so timestamps within a case are
distinct). -/
def latestTrace (sink : SinkState) (case_id : Nat) : Option InferenceTrace :=
  (sink.traces.filter (fun t => t.patient_case == case_id)).foldl
    (fun acc t =>
      match acc with
      | none => some t
      | some b => if b.execution_timestamp < t.execution_timestamp then some t else some b)
    none

/-- get_strategy_used_display() (diagnosis_service.py line 247): the
display label of the stored strategy tag per the model choices
(explanations/models.py lines 34-38); Django returns the raw value for
a tag outside the choices. -/
def strategyUsedDisplay (s : String) : String :=
  if s = ("FORWARD_CHAINING") then ("Forward Chaining")
  else if s = ("BACKWARD_CHAINING") then ("Backward Chaining")
  else s

/-- The case metadata header prepended by get_explanation
(diagnosis_service.py lines 244-248); the session date format is
abstracted to the logical clock value. -/
def explanationHeader (pcase : PatientCase) (tr : InferenceTrace) : String :=
  ("patient: ") ++ pcase.patient_identifier ++ ("\n") ++
    ("session: ") ++ toString pcase.session_date ++ ("\n") ++
    ("strategy: ") ++ strategyUsedDisplay tr.strategy_used ++ ("\n")

/-- DiagnosisService.get_explanation (diagnosis_service.py lines
200-253): look up the case and its most recent trace, rebuild a minimal
result from the stored data, format it through the explain_result of the
strategy currently configured on the service, and prepend the case
header. -/
def get_explanation (strat : Strategy) (sink : SinkState) (case_id : Nat) :
    Except ExplainError String :=
  match findCase sink case_id with
  | none => .error (.caseNotFound case_id)
  | some pcase =>
    match latestTrace sink case_id with
    | none => .error (.traceNotFound case_id)
    | some tr =>
      match strat.explainReconstructed (reconstructResult pcase tr) with
      | .error k => .error (.keyError k)
      | .ok body => .ok (explanationHeader pcase tr ++ ("\n") ++ body)

/-- The property that an aggregated disease entry reports, once rounded,
the maximum of the rounded final confidences of its firing rules, and
that it has at least one firing rule. -/
def maxProp (ds : DiseaseScore) : Prop :=
  round4 ds.final_confidence ∈ ds.matching_rules.map RuleRecord.final_confidence ∧
    ∀ c ∈ ds.matching_rules.map RuleRecord.final_confidence,
      c ≤ round4 ds.final_confidence

/-- The property that some aggregated disease entry for the given
disease id holds the given rule record among its matching rules. -/
def containsRec (scores : List DiseaseScore) (i : Nat) (rr : RuleRecord) : Prop :=
  ∃ ds ∈ scores, ds.disease_id = i ∧ rr ∈ ds.matching_rules

/-- A knowledge base whose single rule has no overlap with symptom 5. -/
def kbC2 : KnowledgeBase :=
  { symptoms := [⟨1, "Fever"⟩, ⟨5, "Nausea"⟩]
    rules := [⟨1, "R1", [1], 80, ⟨1, "Flu"⟩, []⟩] }

/-- A knowledge base holding one symptom and no rules at all, so every
target disease has zero rules. -/
def kbC3 : KnowledgeBase :=
  { symptoms := [⟨1, "Fever"⟩], rules := [] }

/-- The rule of scenario A: Fever, Cough and Fatigue conclude Influenza
at confidence factor 75. -/
def ruleA : Rule :=
  ⟨1, "Rule-Flu-01", [1, 2, 3], 75, ⟨1, "Influenza"⟩, []⟩

/-- The knowledge base of scenario A. -/
def kbA : KnowledgeBase :=
  { symptoms := [⟨1, "Fever"⟩, ⟨2, "Cough"⟩, ⟨3, "Fatigue"⟩]
    rules := [ruleA] }

/-- A knowledge base where two rules support the same disease with
different confidences (50 and 80). -/
def kbC1 : KnowledgeBase :=
  { symptoms := [⟨1, "Fever"⟩, ⟨2, "Cough"⟩]
    rules := [⟨1, "R1", [1], 50, ⟨1, "Flu"⟩, []⟩,
              ⟨2, "R2", [1, 2], 80, ⟨1, "Flu"⟩, []⟩] }

/-- The forward chaining result on kbC1 with both symptoms reported:
both rules fire, and the Flu entry reports the maximum confidence. -/
def resC1 : ForwardResult :=
  { strategy := ("FORWARD_CHAINING")
    diseases :=
      [{ disease_id := 1
         disease_name := ("Flu")
         final_confidence := 4/5
         matching_rules :=
           [⟨1, "R1", ["Fever"], 1, 50, 1/2, ""⟩,
            ⟨2, "R2", ["Fever", "Cough"], 1, 80, 4/5, ""⟩] }]
    rules_fired :=
      [⟨1, "R1", ["Fever"], 1, 50, 1/2, ""⟩,
       ⟨2, "R2", ["Fever", "Cough"], 1, 80, 4/5, ""⟩]
    total_rules_evaluated := 2
    execution_time_ms := 0 }

/-- A knowledge base where two distinct diseases each have one rule at
the same confidence factor, producing a ranking tie. -/
def kbC8 : KnowledgeBase :=
  { symptoms := [⟨1, "Fever"⟩, ⟨2, "Cough"⟩]
    rules := [⟨1, "R1", [1], 60, ⟨1, "DiseaseA"⟩, []⟩,
              ⟨2, "R2", [2], 60, ⟨2, "DiseaseB"⟩, []⟩] }

/-- The forward chaining result on kbC8 with both symptoms reported:
both diseases score 0.6 and keep their encounter order. -/
def resC8 : ForwardResult :=
  { strategy := ("FORWARD_CHAINING")
    diseases :=
      [{ disease_id := 1
         disease_name := ("DiseaseA")
         final_confidence := 3/5
         matching_rules := [⟨1, "R1", ["Fever"], 1, 60, 3/5, ""⟩] },
       { disease_id := 2
         disease_name := ("DiseaseB")
         final_confidence := 3/5
         matching_rules := [⟨2, "R2", ["Cough"], 1, 60, 3/5, ""⟩] }]
    rules_fired :=
      [⟨1, "R1", ["Fever"], 1, 60, 3/5, ""⟩,
       ⟨2, "R2", ["Cough"], 1, 60, 3/5, ""⟩]
    total_rules_evaluated := 2
    execution_time_ms := 0 }

/-- A knowledge base holding only symptom 1, so id 9999 is unknown. -/
def kbC4 : KnowledgeBase :=
  { symptoms := [⟨1, "Fever"⟩]
    rules := [⟨1, "R1", [1], 80, ⟨1, "Flu"⟩, []⟩] }

/-- An empty persistence sink. -/
def sink0 : SinkState :=
  { cases := [], traces := [], nextCaseId := 1, clock := 0 }

/-- A knowledge base with one rule so that diagnosis succeeds on
symptom 1. -/
def kbC9 : KnowledgeBase :=
  { symptoms := [⟨1, "Fever"⟩]
    rules := [⟨1, "R1", [1], 80, ⟨1, "Flu"⟩, []⟩] }

/-- The rule record fired by kbC9 on symptom 1. -/
def recC9 : RuleRecord :=
  ⟨1, "R1", ["Fever"], 1, 80, 4/5, ""⟩

/-- The strategy result of the kbC9 run. -/
def resultC9 : StratResult :=
  .forward
    { strategy := ("FORWARD_CHAINING")
      diseases := [{ disease_id := 1
                     disease_name := ("Flu")
                     final_confidence := 4/5
                     matching_rules := [recC9] }]
      rules_fired := [recC9]
      total_rules_evaluated := 1
      execution_time_ms := 0 }

/-- The successful diagnose output of the kbC9 run. -/
def outC9 : DiagnoseOk :=
  { result := resultC9, case_id := 1 }

/-- The sink after persisting the kbC9 run on the empty sink. -/
def sinkAfterC9 : SinkState :=
  { cases := [{ id := 1
                patient_identifier := ("PT-001")
                session_date := 0
                reported_symptoms_snapshot := [⟨1, "Fever"⟩]
                inferred_results := [⟨1, "Flu", 4/5⟩]
                applied_rules_trace := [⟨1, ""⟩] }]
    traces := [{ patient_case := 1
                 strategy_used := ("FORWARD_CHAINING")
                 rules_fired := .fwd [recC9]
                 confidence_scores_calculated := [(("Flu"), 4/5)]
                 execution_time_ms := 0
                 execution_timestamp := 0 }]
    nextCaseId := 2
    clock := 1 }

/-- A sink holding one persisted case (produced by a backward chaining
run, so its inferred-results list is empty) and its single trace, whose
stored strategy tag is BACKWARD_CHAINING. -/
def sinkC5 : SinkState :=
  { cases := [{ id := 1
                patient_identifier := ("PT-XYZ")
                session_date := 0
                reported_symptoms_snapshot := []
                inferred_results := []
                applied_rules_trace := [] }]
    traces := [{ patient_case := 1
                 strategy_used := ("BACKWARD_CHAINING")
                 rules_fired := .bwd []
                 confidence_scores_calculated := []
                 execution_time_ms := 7
                 execution_timestamp := 0 }]
    nextCaseId := 2
    clock := 1 }

/-- The sink sinkC5 extended with one unrelated case and trace; the
stored data for case 1 is untouched. -/
def sinkC5b : SinkState :=
  { cases := sinkC5.cases ++
      [{ id := 2
         patient_identifier := ("PT-OTHER")
         session_date := 5
         reported_symptoms_snapshot := []
         inferred_results := []
         applied_rules_trace := [] }]
    traces := sinkC5.traces ++
      [{ patient_case := 2
         strategy_used := ("FORWARD_CHAINING")
         rules_fired := .fwd []
         confidence_scores_calculated := []
         execution_time_ms := 3
         execution_timestamp := 5 }]
    nextCaseId := 3
    clock := 6 }

/-- A knowledge base where reporting symptom 1 evaluates two rules but
fires only one. -/
def kbC10 : KnowledgeBase :=
  { symptoms := [⟨1, "Fever"⟩, ⟨2, "Cough"⟩]
    rules := [⟨1, "R1", [1], 50, ⟨1, "Flu"⟩, []⟩,
              ⟨2, "R2", [2], 50, ⟨1, "Flu"⟩, []⟩] }

theorem round4_mono {a b : ℚ} (h : a ≤ b) : round4 a ≤ round4 b := by
  unfold round4
  have hz : (round (a * 10000) : ℤ) ≤ round (b * 10000) := by
    rw [round_eq, round_eq]
    exact Int.floor_le_floor (by linarith)
  have hq : ((round (a * 10000) : ℤ) : ℚ) ≤ ((round (b * 10000) : ℤ) : ℚ) :=
    Int.cast_le.mpr hz
  exact div_le_div_of_nonneg_right hq (by norm_num)

theorem round4_zero : round4 0 = 0 := by
  unfold round4
  norm_num

theorem round4_one : round4 1 = 1 := by
  have h : ((1 : ℚ) * 10000) = ((10000 : ℕ) : ℚ) := by norm_num
  rw [round4, h, round_natCast]
  norm_num

theorem round4_nonneg {q : ℚ} (h : 0 ≤ q) : 0 ≤ round4 q := by
  have := round4_mono h
  rwa [round4_zero] at this

theorem round4_le_one {q : ℚ} (h : q ≤ 1) : round4 q ≤ 1 := by
  have := round4_mono h
  rwa [round4_one] at this

theorem insertDesc_perm (x : DiseaseScore) (l : List DiseaseScore) :
    List.Perm (insertDesc x l) (x :: l) := by
  induction l with
  | nil => simp [insertDesc]
  | cons y ys ih =>
    rw [insertDesc]
    split
    · exact List.Perm.refl _
    · exact (ih.cons y).trans (List.Perm.swap x y ys)

theorem sortDesc_perm (l : List DiseaseScore) : List.Perm (sortDesc l) l := by
  induction l with
  | nil => simp [sortDesc]
  | cons x xs ih => exact (insertDesc_perm x (sortDesc xs)).trans (ih.cons x)

theorem insertDesc_pairwise (x : DiseaseScore) (l : List DiseaseScore)
    (h : l.Pairwise (fun a b => b.final_confidence ≤ a.final_confidence)) :
    (insertDesc x l).Pairwise
      (fun a b => b.final_confidence ≤ a.final_confidence) := by
  induction l with
  | nil => simp [insertDesc]
  | cons y ys ih =>
    rw [List.pairwise_cons] at h
    obtain ⟨hy, hys⟩ := h
    rw [insertDesc]
    split
    · rename_i hle
      refine List.pairwise_cons.mpr ⟨?_, List.pairwise_cons.mpr ⟨hy, hys⟩⟩
      intro b hb
      rcases List.mem_cons.mp hb with hb | hb
      · rw [hb]; exact hle
      · exact le_trans (hy b hb) hle
    · rename_i hgt
      refine List.pairwise_cons.mpr ⟨?_, ih hys⟩
      intro b hb
      rcases List.mem_cons.mp ((insertDesc_perm x ys).mem_iff.mp hb) with hb | hb
      · rw [hb]; exact le_of_lt (not_le.mp hgt)
      · exact hy b hb

theorem sortDesc_pairwise (l : List DiseaseScore) :
    (sortDesc l).Pairwise
      (fun a b => b.final_confidence ≤ a.final_confidence) := by
  induction l with
  | nil => simp [sortDesc]
  | cons x xs ih => exact insertDesc_pairwise x (sortDesc xs) ih

theorem insertDesc_filter (x : DiseaseScore) (l : List DiseaseScore) (c : ℚ) :
    (insertDesc x l).filter (fun d => decide (d.final_confidence = c)) =
      if x.final_confidence = c then
        x :: l.filter (fun d => decide (d.final_confidence = c))
      else l.filter (fun d => decide (d.final_confidence = c)) := by
  induction l with
  | nil =>
    by_cases hc : x.final_confidence = c <;>
      simp [insertDesc, List.filter_cons, hc]
  | cons y ys ih =>
    rw [insertDesc]
    split
    · by_cases hc : x.final_confidence = c <;> simp [List.filter_cons, hc]
    · rename_i hgt
      by_cases hyc : y.final_confidence = c
      · have hxc : x.final_confidence ≠ c := by
          rw [← hyc]
          exact ne_of_lt (not_le.mp hgt)
        simp [List.filter_cons, hyc, hxc, ih]
      · by_cases hc : x.final_confidence = c <;>
          simp [List.filter_cons, hyc, hc, ih]

theorem sortDesc_filter (l : List DiseaseScore) (c : ℚ) :
    (sortDesc l).filter (fun d => decide (d.final_confidence = c)) =
      l.filter (fun d => decide (d.final_confidence = c)) := by
  induction l with
  | nil => rfl
  | cons x xs ih =>
    rw [sortDesc, insertDesc_filter, List.filter_cons]
    by_cases hc : x.final_confidence = c <;> simp [hc, ih]

theorem updateScores_maxProp (d : Disease) (rr : RuleRecord) (fc : ℚ)
    (hrr : rr.final_confidence = round4 fc) :
    ∀ (scores : List DiseaseScore), (∀ ds ∈ scores, maxProp ds) →
      ∀ ds ∈ updateScores d rr fc scores, maxProp ds := by
  intro scores
  induction scores with
  | nil =>
    intro _ ds hds
    rw [updateScores] at hds
    rcases List.mem_singleton.mp hds with rfl
    constructor
    · simp [hrr.symm]
    · intro c hc
      simp at hc
      rw [hc, hrr]
  | cons s rest ih =>
    intro hall ds hds
    rw [updateScores] at hds
    split at hds
    · rename_i hid
      rcases List.mem_cons.mp hds with rfl | h2
      · obtain ⟨hmem, hub⟩ := hall s (List.mem_cons_self s rest)
        by_cases hlt : s.final_confidence < fc
        · constructor
          · simp only [if_pos hlt, List.map_append]
            exact List.mem_append_right _ (by simp [hrr.symm])
          · intro c hc
            simp only [if_pos hlt, List.map_append] at hc ⊢
            rcases List.mem_append.mp hc with hc | hc
            · exact le_trans (hub c hc) (round4_mono (le_of_lt hlt))
            · simp at hc
              rw [hc, hrr]
        · constructor
          · simp only [if_neg hlt, List.map_append]
            exact List.mem_append_left _ hmem
          · intro c hc
            simp only [if_neg hlt, List.map_append] at hc ⊢
            rcases List.mem_append.mp hc with hc | hc
            · exact hub c hc
            · simp at hc
              rw [hc, hrr]
              exact round4_mono (not_lt.mp hlt)
      · exact hall ds (List.mem_cons_of_mem s h2)
    · rcases List.mem_cons.mp hds with rfl | h2
      · exact hall ds (List.mem_cons_self ds rest)
      · exact ih (fun x hx => hall x (List.mem_cons_of_mem s hx)) ds h2

theorem updateScores_contains_new (d : Disease) (rr : RuleRecord) (fc : ℚ) :
    ∀ scores, containsRec (updateScores d rr fc scores) d.id rr := by
  intro scores
  induction scores with
  | nil =>
    rw [updateScores]
    exact ⟨_, List.mem_singleton_self _, rfl, List.mem_singleton_self rr⟩
  | cons s rest ih =>
    rw [updateScores]
    split
    · rename_i hid
      exact ⟨_, List.mem_cons_self _ _, hid, List.mem_append_right _ (List.mem_singleton_self rr)⟩
    · obtain ⟨ds, hds, hid, hx⟩ := ih
      exact ⟨ds, List.mem_cons_of_mem s hds, hid, hx⟩

theorem updateScores_contains_mono (d : Disease) (rr : RuleRecord) (fc : ℚ)
    (i : Nat) (x : RuleRecord) :
    ∀ scores, containsRec scores i x →
      containsRec (updateScores d rr fc scores) i x := by
  intro scores
  induction scores with
  | nil => rintro ⟨ds, hds, _⟩; cases hds
  | cons s rest ih =>
    rintro ⟨ds, hds, hid, hx⟩
    rw [updateScores]
    split
    · rcases List.mem_cons.mp hds with rfl | h2
      · exact ⟨_, List.mem_cons_self _ _, hid, List.mem_append_left _ hx⟩
      · exact ⟨ds, List.mem_cons_of_mem _ h2, hid, hx⟩
    · rcases List.mem_cons.mp hds with rfl | h2
      · exact ⟨ds, List.mem_cons_self _ _, hid, hx⟩
      · obtain ⟨ds2, hds2, hid2, hx2⟩ := ih ⟨ds, h2, hid, hx⟩
        exact ⟨ds2, List.mem_cons_of_mem _ hds2, hid2, hx2⟩

theorem evalRule_not_fire (kb : KnowledgeBase) (reported : Finset Nat)
    (st : ForwardState) (rule : Rule)
    (h : reported ∩ rule.if_symptoms.toFinset = ∅) :
    evalRule kb reported st rule =
      { st with total_evaluated := st.total_evaluated + 1 } := by
  simp [evalRule, h]

theorem evalRule_fire (kb : KnowledgeBase) (reported : Finset Nat)
    (st : ForwardState) (rule : Rule)
    (h : ¬(reported ∩ rule.if_symptoms.toFinset = ∅)) :
    evalRule kb reported st rule =
      { rules_fired := st.rules_fired ++ [mkRuleRecord kb reported rule]
        disease_scores :=
          updateScores rule.then_disease (mkRuleRecord kb reported rule)
            (finalConfidenceOf reported rule) st.disease_scores
        total_evaluated := st.total_evaluated + 1 } := by
  simp [evalRule, h]

theorem foldl_fired_nil (kb : KnowledgeBase) (reported : Finset Nat) :
    ∀ (rules : List Rule) (st : ForwardState),
      ((rules.foldl (evalRule kb reported) st).rules_fired = [] ↔
        st.rules_fired = [] ∧
          ∀ r ∈ rules, reported ∩ r.if_symptoms.toFinset = ∅) := by
  intro rules
  induction rules with
  | nil => intro st; simp
  | cons r rs ih =>
    intro st
    rw [List.foldl_cons]
    by_cases h : reported ∩ r.if_symptoms.toFinset = ∅
    · rw [evalRule_not_fire kb reported st r h, ih]
      simp [h]
    · rw [evalRule_fire kb reported st r h, ih]
      simp [h]

theorem foldl_maxProp (kb : KnowledgeBase) (reported : Finset Nat) :
    ∀ (rules : List Rule) (st : ForwardState),
      (∀ ds ∈ st.disease_scores, maxProp ds) →
      ∀ ds ∈ (rules.foldl (evalRule kb reported) st).disease_scores, maxProp ds := by
  intro rules
  induction rules with
  | nil => intro st h; exact h
  | cons r rs ih =>
    intro st h
    rw [List.foldl_cons]
    by_cases hf : reported ∩ r.if_symptoms.toFinset = ∅
    · rw [evalRule_not_fire kb reported st r hf]
      exact ih _ h
    · rw [evalRule_fire kb reported st r hf]
      exact ih _ (updateScores_maxProp r.then_disease _ _ rfl st.disease_scores h)

theorem foldl_contains_mono (kb : KnowledgeBase) (reported : Finset Nat)
    (i : Nat) (x : RuleRecord) :
    ∀ (rules : List Rule) (st : ForwardState),
      containsRec st.disease_scores i x →
      containsRec ((rules.foldl (evalRule kb reported) st)).disease_scores i x := by
  intro rules
  induction rules with
  | nil => intro st h; exact h
  | cons r rs ih =>
    intro st h
    rw [List.foldl_cons]
    by_cases hf : reported ∩ r.if_symptoms.toFinset = ∅
    · rw [evalRule_not_fire kb reported st r hf]
      exact ih _ h
    · rw [evalRule_fire kb reported st r hf]
      exact ih _ (updateScores_contains_mono _ _ _ i x st.disease_scores h)

theorem foldl_contains_of_fire (kb : KnowledgeBase) (reported : Finset Nat) :
    ∀ (rules : List Rule) (st : ForwardState) (r : Rule), r ∈ rules →
      ¬(reported ∩ r.if_symptoms.toFinset = ∅) →
      containsRec ((rules.foldl (evalRule kb reported) st)).disease_scores
        r.then_disease.id (mkRuleRecord kb reported r) := by
  intro rules
  induction rules with
  | nil => intro st r hr; cases hr
  | cons a rs ih =>
    intro st r hr hfire
    rw [List.foldl_cons]
    rcases List.mem_cons.mp hr with rfl | h2
    · rw [evalRule_fire kb reported st r hfire]
      exact foldl_contains_mono kb reported _ _ rs _
        (updateScores_contains_new r.then_disease _ _ st.disease_scores)
    · exact ih _ r h2 hfire

theorem forwardExecute_eq_ok {kb : KnowledgeBase} {symptoms : List Nat}
    {res : ForwardResult} (h : forwardExecute kb symptoms = .ok res) :
    (forwardState kb symptoms).rules_fired ≠ [] ∧
      res =
        { strategy := ("FORWARD_CHAINING")
          diseases := (sortDesc (forwardState kb symptoms).disease_scores).map roundDisease
          rules_fired := (forwardState kb symptoms).rules_fired
          total_rules_evaluated := (forwardState kb symptoms).total_evaluated
          execution_time_ms := 0 } := by
  rw [forwardExecute] at h
  split at h
  · cases h
  · rename_i hne
    cases h
    exact ⟨hne, rfl⟩

theorem forwardExecute_error_iff (kb : KnowledgeBase) (symptoms : List Nat) :
    forwardExecute kb symptoms = .error (.engine (.noMatchingRule symptoms)) ↔
      ∀ r ∈ kb.rules, symptoms.toFinset ∩ r.if_symptoms.toFinset = ∅ := by
  have hchar := foldl_fired_nil kb symptoms.toFinset kb.rules
    { rules_fired := [], disease_scores := [], total_evaluated := 0 }
  constructor
  · intro h
    rw [forwardExecute] at h
    split at h
    · rename_i hnil
      exact (hchar.mp hnil).2
    · cases h
  · intro h
    have hnil : (forwardState kb symptoms).rules_fired = [] :=
      hchar.mpr ⟨rfl, h⟩
    rw [forwardExecute, if_pos hnil]

theorem validate_missing_eq (kb : KnowledgeBase) (ids : List Nat) :
    (validate_symptom_existence kb ids).2 =
      ids.filter (fun sid => !(kb.symptoms.any (fun s => s.id == sid))) := by
  rw [validate_symptom_existence]
  refine List.filter_congr ?_
  intro sid hsid
  rw [Bool.eq_iff_iff]
  simp only [decide_eq_true_eq, Bool.not_eq_true', List.any_eq_false, beq_iff_eq,
    List.mem_toFinset, List.mem_map, List.mem_filter]
  constructor
  · intro hnot x hx heq
    exact hnot ⟨x, ⟨hx, by simp [heq, hsid]⟩, heq⟩
  · rintro hall ⟨a, ⟨ha, _⟩, hid⟩
    exact hall a ha hid

theorem validate_fst_true_iff (kb : KnowledgeBase) (ids : List Nat) :
    (validate_symptom_existence kb ids).1 = true ↔
      (validate_symptom_existence kb ids).2 = [] := by
  rw [validate_symptom_existence]
  simp [List.length_eq_zero]

/-- C2: in forward chaining a rule whose required-symptom set has empty
intersection with the reported set never fires: evaluating it only
advances the evaluation counter and contributes nothing to the fired
list or the disease scores.  Moreover the call fails, with a
NoMatchingRule error carrying the original submitted symptom id list,
exactly when every rule in the knowledge base has empty overlap with the
reported set, that is, when no rule fires for any disease. -/
theorem C2_zero_overlap_never_fires (kb : KnowledgeBase) (symptoms : List Nat) :
    (∀ (st : ForwardState) (r : Rule),
        symptoms.toFinset ∩ r.if_symptoms.toFinset = ∅ →
        evalRule kb symptoms.toFinset st r =
          { st with total_evaluated := st.total_evaluated + 1 }) ∧
    (forwardExecute kb symptoms = .error (.engine (.noMatchingRule symptoms)) ↔
      ∀ r ∈ kb.rules, symptoms.toFinset ∩ r.if_symptoms.toFinset = ∅) :=
  ⟨fun st r h => evalRule_not_fire kb symptoms.toFinset st r h,
   forwardExecute_error_iff kb symptoms⟩

/-- Witness for C2 at a concrete input: reporting only symptom 5 against
a rule requiring symptom 1 fails with NoMatchingRule carrying the
submitted list. -/
theorem C2_zero_overlap_witness :
    forwardExecute kbC2 [5] = .error (.engine (.noMatchingRule [5])) :=
  (C2_zero_overlap_never_fires kbC2 [5]).2.mpr (by with_unfolding_all decide)

/-- C3 (amended): backward chaining on a target disease with zero rules
always fails with a NoMatchingRule error carrying the submitted symptom
ids; contrary to the claim, the error does not carry the target disease
id (NoMatchingRuleError stores only symptom_ids, exceptions.py lines
51-66, and backward_chaining.py line 95 passes only the symptom list). -/
theorem C3_backward_no_rules (kb : KnowledgeBase) (symptoms : List Nat)
    (tid : Nat) (h : getRulesByDisease kb tid = []) :
    backwardExecute kb symptoms (some tid) =
      .error (.engine (.noMatchingRule symptoms)) := by
  rw [backwardExecute, h]

/-- Counterexample for C3 as stated: with no rules for either target,
backward chaining over the same symptoms returns bit-for-bit identical
errors for two different target disease ids, so the NoMatchingRule error
cannot carry the target disease id; it carries only the submitted
symptom id list. -/
theorem C3_error_lacks_target_id :
    backwardExecute kbC3 [1] (some 10) = backwardExecute kbC3 [1] (some 20) ∧
    backwardExecute kbC3 [1] (some 10) =
      .error (.engine (.noMatchingRule [1])) := by
  constructor
  · rfl
  · rfl

/-- Witness for the amended C3 at a concrete input: target disease 10
has zero rules and the call fails with NoMatchingRule carrying the
submitted symptom ids. -/
theorem C3_backward_no_rules_witness :
    getRulesByDisease kbC3 10 = [] ∧
    backwardExecute kbC3 [1] (some 10) =
      .error (.engine (.noMatchingRule [1])) :=
  ⟨by with_unfolding_all decide,
   C3_backward_no_rules kbC3 [1] 10 (by with_unfolding_all decide)⟩

/-- C6: for a firing rule (hence one with a non-empty required set) with
confidence factor at most 100, the recorded match ratio is the rounded
quotient of matched over required cardinalities, the recorded final
confidence is the rounded product of the raw ratio with confidence
factor over 100, and raw and rounded scores all lie in the unit
interval.  In particular, scenario A: reporting exactly the three
required symptoms of a confidence-75 rule for Influenza yields match
ratio 1 and final confidence 0.75 as the only ranked entry. -/
theorem C6_scoring (kb : KnowledgeBase) (reported : Finset Nat) (r : Rule)
    (hfire : reported ∩ r.if_symptoms.toFinset ≠ ∅)
    (hcf : r.confidence_factor ≤ 100) :
    ((mkRuleRecord kb reported r).match_ratio =
        round4 (((reported ∩ r.if_symptoms.toFinset).card : ℚ) /
          ((r.if_symptoms.toFinset.card : ℚ))) ∧
      (mkRuleRecord kb reported r).final_confidence =
        round4 (matchRatioOf reported r * ((r.confidence_factor : ℚ) / 100)) ∧
      0 ≤ matchRatioOf reported r ∧ matchRatioOf reported r ≤ 1 ∧
      0 ≤ finalConfidenceOf reported r ∧ finalConfidenceOf reported r ≤ 1 ∧
      0 ≤ (mkRuleRecord kb reported r).match_ratio ∧
      (mkRuleRecord kb reported r).match_ratio ≤ 1 ∧
      0 ≤ (mkRuleRecord kb reported r).final_confidence ∧
      (mkRuleRecord kb reported r).final_confidence ≤ 1) ∧
    (forwardExecute kbA [1, 2, 3]).toOption.map
        (fun res =>
          (res.diseases.map (fun d => (d.disease_name, d.final_confidence)),
            res.rules_fired.map (fun rec => (rec.match_ratio, rec.final_confidence))))
      = some ([("Influenza", 3/4)], [(1, 3/4)]) := by
  have hreq : (reported ∩ r.if_symptoms.toFinset) ⊆ r.if_symptoms.toFinset :=
    Finset.inter_subset_right
  have hne : r.if_symptoms.toFinset ≠ ∅ := by
    intro h0
    exact hfire (Finset.subset_empty.mp (h0 ▸ hreq))
  have hpos : (0 : ℚ) < (r.if_symptoms.toFinset.card : ℚ) := by
    have := Finset.card_pos.mpr (Finset.nonempty_iff_ne_empty.mpr hne)
    exact_mod_cast this
  have hr0 : 0 ≤ matchRatioOf reported r :=
    div_nonneg (Nat.cast_nonneg _) (Nat.cast_nonneg _)
  have hr1 : matchRatioOf reported r ≤ 1 := by
    rw [matchRatioOf, div_le_one hpos]
    exact_mod_cast Finset.card_le_card hreq
  have hcf0 : (0 : ℚ) ≤ (r.confidence_factor : ℚ) / 100 :=
    div_nonneg (Nat.cast_nonneg _) (by norm_num)
  have hcf1 : (r.confidence_factor : ℚ) / 100 ≤ 1 := by
    rw [div_le_one (by norm_num)]
    exact_mod_cast hcf
  have hf0 : 0 ≤ finalConfidenceOf reported r := mul_nonneg hr0 hcf0
  have hf1 : finalConfidenceOf reported r ≤ 1 := mul_le_one₀ hr1 hcf0 hcf1
  refine ⟨⟨rfl, rfl, hr0, hr1, hf0, hf1, ?_, ?_, ?_, ?_⟩, ?_⟩
  · exact round4_nonneg hr0
  · exact round4_le_one hr1
  · exact round4_nonneg hf0
  · exact round4_le_one hf1
  · with_unfolding_all decide

/-- Witness for C6 at a concrete input: scenario A, whose rule fires
with full overlap and confidence factor 75. -/
theorem C6_scoring_witness :
    (([1, 2, 3] : List Nat).toFinset ∩ ruleA.if_symptoms.toFinset ≠ ∅ ∧
      ruleA.confidence_factor ≤ 100) ∧
    (mkRuleRecord kbA ([1, 2, 3] : List Nat).toFinset ruleA).match_ratio = 1 ∧
    (mkRuleRecord kbA ([1, 2, 3] : List Nat).toFinset ruleA).final_confidence = 3/4 := by
  refine ⟨⟨by with_unfolding_all decide, by decide⟩, ?_, ?_⟩
  · have h := (C6_scoring kbA ([1, 2, 3] : List Nat).toFinset ruleA
      (by with_unfolding_all decide) (by decide)).1.1
    rw [h]
    with_unfolding_all decide
  · have h := (C6_scoring kbA ([1, 2, 3] : List Nat).toFinset ruleA
      (by with_unfolding_all decide) (by decide)).1.2.1
    rw [h]
    with_unfolding_all decide

/-- C7: validate_symptom_existence answers all-exist exactly when every
supplied id names some symptom of the knowledge base (in particular on
the empty list), and otherwise reports exactly the absent ids, as a
sublist of the input, hence in the original submission order. -/
theorem C7_validate_symptom_existence (kb : KnowledgeBase) (ids : List Nat) :
    ((validate_symptom_existence kb ids).1 = true ↔
      ∀ sid ∈ ids, ∃ s ∈ kb.symptoms, s.id = sid) ∧
    (validate_symptom_existence kb ids).2 =
      ids.filter (fun sid => !(kb.symptoms.any (fun s => s.id == sid))) ∧
    List.Sublist (validate_symptom_existence kb ids).2 ids ∧
    ((validate_symptom_existence kb ids).1 = true ↔
      (validate_symptom_existence kb ids).2 = []) ∧
    (ids = [] → validate_symptom_existence kb ids = (true, [])) := by
  refine ⟨?_, validate_missing_eq kb ids, ?_, validate_fst_true_iff kb ids, ?_⟩
  · rw [validate_fst_true_iff, validate_missing_eq, List.filter_eq_nil_iff]
    constructor
    · intro h sid hsid
      have := h sid hsid
      simp only [Bool.not_eq_true', List.any_eq_false, beq_iff_eq] at this
      push_neg at this
      obtain ⟨s, hs, heq⟩ := this
      exact ⟨s, hs, heq⟩
    · intro h sid hsid
      obtain ⟨s, hs, heq⟩ := h sid hsid
      simp only [Bool.not_eq_true', List.any_eq_false, beq_iff_eq]
      push_neg
      exact ⟨s, hs, heq⟩
  · rw [validate_missing_eq]
    exact List.filter_sublist ids
  · rintro rfl
    rfl

/-- Witness for C7 at a concrete input: the empty id list validates as
all-exist with no missing ids. -/
theorem C7_validate_symptom_existence_witness :
    validate_symptom_existence kbC4 [] = (true, []) :=
  (C7_validate_symptom_existence kbC4 []).2.2.2.2 rfl

/-- C1: on every successful forward chaining run, each ranked disease
entry reports as its confidence the maximum of the final confidences of
its matching rules (it is one of them and bounds all of them; never a
sum or average), and every firing rule of the knowledge base appears in
the matching-rule list of its disease entry. -/
theorem C1_confidence_is_max (kb : KnowledgeBase) (symptoms : List Nat)
    (res : ForwardResult) (h : forwardExecute kb symptoms = .ok res) :
    (∀ ds ∈ res.diseases,
        ds.final_confidence ∈ ds.matching_rules.map RuleRecord.final_confidence ∧
        ∀ c ∈ ds.matching_rules.map RuleRecord.final_confidence,
          c ≤ ds.final_confidence) ∧
    (∀ r ∈ kb.rules, symptoms.toFinset ∩ r.if_symptoms.toFinset ≠ ∅ →
        ∃ ds ∈ res.diseases, ds.disease_id = r.then_disease.id ∧
          mkRuleRecord kb symptoms.toFinset r ∈ ds.matching_rules) := by
  obtain ⟨hne, rfl⟩ := forwardExecute_eq_ok h
  constructor
  · intro ds hds
    obtain ⟨ds0, hds0, rfl⟩ := List.mem_map.mp hds
    have hmem : ds0 ∈ (forwardState kb symptoms).disease_scores :=
      (sortDesc_perm _).subset hds0
    have hmax : maxProp ds0 :=
      foldl_maxProp kb symptoms.toFinset kb.rules
        { rules_fired := [], disease_scores := [], total_evaluated := 0 }
        (by intro x hx; cases hx) ds0 hmem
    exact hmax
  · intro r hr hfire
    obtain ⟨ds0, hds0, hid, hrec⟩ :=
      foldl_contains_of_fire kb symptoms.toFinset kb.rules
        { rules_fired := [], disease_scores := [], total_evaluated := 0 }
        r hr hfire
    refine ⟨roundDisease ds0, List.mem_map_of_mem roundDisease
      ((sortDesc_perm _).mem_iff.mpr hds0), hid, hrec⟩

/-- Witness for C1 at a concrete input: two rules for Flu fire with
final confidences 0.5 and 0.8; the reported confidence is 0.8, their
maximum, and both rule records stay in the Flu rule list. -/
theorem C1_confidence_is_max_witness :
    forwardExecute kbC1 [1, 2] = .ok resC1 ∧
    (∀ ds ∈ resC1.diseases,
        ds.final_confidence ∈ ds.matching_rules.map RuleRecord.final_confidence ∧
        ∀ c ∈ ds.matching_rules.map RuleRecord.final_confidence,
          c ≤ ds.final_confidence) ∧
    (∀ r ∈ kbC1.rules, ([1, 2] : List Nat).toFinset ∩ r.if_symptoms.toFinset ≠ ∅ →
        ∃ ds ∈ resC1.diseases, ds.disease_id = r.then_disease.id ∧
          mkRuleRecord kbC1 ([1, 2] : List Nat).toFinset r ∈ ds.matching_rules) :=
  ⟨by with_unfolding_all decide,
   C1_confidence_is_max kbC1 [1, 2] resC1 (by with_unfolding_all decide)⟩

/-- C8: the ranked disease list of every successful forward chaining run
is sorted by final confidence in descending order, its entries are the
encounter-order aggregation entries stably sorted (the identifier
sequence equals that of the stable descending sort of the
first-firing-rule-order list), and for every confidence value the
entries carrying it appear in exactly their encounter order, so ties
keep the order in which their first firing rule was evaluated. -/
theorem C8_ranking_stable (kb : KnowledgeBase) (symptoms : List Nat)
    (res : ForwardResult) (h : forwardExecute kb symptoms = .ok res) :
    res.diseases.Pairwise
      (fun a b => b.final_confidence ≤ a.final_confidence) ∧
    res.diseases.map DiseaseScore.disease_id =
      (sortDesc (forwardState kb symptoms).disease_scores).map
        DiseaseScore.disease_id ∧
    ∀ c : ℚ,
      (sortDesc (forwardState kb symptoms).disease_scores).filter
          (fun d => decide (d.final_confidence = c)) =
        (forwardState kb symptoms).disease_scores.filter
          (fun d => decide (d.final_confidence = c)) := by
  obtain ⟨hne, rfl⟩ := forwardExecute_eq_ok h
  refine ⟨?_, ?_, fun c => sortDesc_filter _ c⟩
  · exact List.Pairwise.map roundDisease
      (fun a b hab => round4_mono hab) (sortDesc_pairwise _)
  · rw [List.map_map]
    exact List.map_congr_left (fun a _ => rfl)

/-- Witness for C8 at a concrete input: DiseaseA and DiseaseB tie at
confidence 0.6 and keep their encounter order in the ranking. -/
theorem C8_ranking_stable_witness :
    forwardExecute kbC8 [1, 2] = .ok resC8 ∧
    resC8.diseases.Pairwise
      (fun a b => b.final_confidence ≤ a.final_confidence) ∧
    (sortDesc (forwardState kbC8 [1, 2]).disease_scores).filter
        (fun d => decide (d.final_confidence = 3/5)) =
      (forwardState kbC8 [1, 2]).disease_scores.filter
        (fun d => decide (d.final_confidence = 3/5)) :=
  ⟨by with_unfolding_all decide,
   (C8_ranking_stable kbC8 [1, 2] resC8 (by with_unfolding_all decide)).1,
   (C8_ranking_stable kbC8 [1, 2] resC8 (by with_unfolding_all decide)).2.2 (3/5)⟩

/-- C4: whenever the submitted symptom list contains at least one id
absent from the knowledge base, diagnose fails with an InvalidSymptom
error carrying exactly the absent ids in submission order, the sink is
returned unchanged (nothing persisted), and the outcome is the same for
every configured strategy, so no execute_inference ever runs. -/
theorem C4_invalid_symptom_blocks (strat : Strategy) (kb : KnowledgeBase)
    (sink : SinkState) (symptoms : List Nat) (patient_id : String)
    (tid : Option Nat)
    (h : symptoms.filter (fun sid => !(kb.symptoms.any (fun s => s.id == sid))) ≠ []) :
    diagnose strat kb sink symptoms patient_id tid =
      (.error (.invalidSymptom
        (symptoms.filter (fun sid => !(kb.symptoms.any (fun s => s.id == sid))))),
        sink) := by
  have hmiss : (validate_symptom_existence kb symptoms).2 =
      symptoms.filter (fun sid => !(kb.symptoms.any (fun s => s.id == sid))) :=
    validate_missing_eq kb symptoms
  have hfst : (validate_symptom_existence kb symptoms).1 = false := by
    rw [← Bool.not_eq_true, validate_fst_true_iff, hmiss]
    exact h
  rw [diagnose, if_pos hfst, hmiss]

/-- Witness for C4 at scenario E: ids 1 and 9999 where 9999 is unknown
fail with InvalidSymptom carrying exactly 9999, leaving the empty sink
untouched. -/
theorem C4_invalid_symptom_blocks_witness :
    diagnose .forwardChaining kbC4 sink0 [1, 9999] ("PT-001") none =
      (.error (.invalidSymptom [9999]), sink0) :=
  C4_invalid_symptom_blocks .forwardChaining kbC4 sink0 [1, 9999] ("PT-001")
    none (by decide)

/-- C9: from the engine side, persistence of the case and its trace is
one atomic unit per call: a successful diagnose appends exactly one case
and exactly one trace to the sink, the trace references the new case,
whose id is the one attached to the result; a failing diagnose returns
the sink unchanged, persisting nothing. -/
theorem C9_persistence_atomic (strat : Strategy) (kb : KnowledgeBase)
    (sink : SinkState) (symptoms : List Nat) (patient_id : String)
    (tid : Option Nat) :
    (∀ out sink2,
        diagnose strat kb sink symptoms patient_id tid = (.ok out, sink2) →
        sink2.cases.dropLast = sink.cases ∧
        sink2.traces.dropLast = sink.traces ∧
        sink2.cases.length = sink.cases.length + 1 ∧
        sink2.traces.length = sink.traces.length + 1 ∧
        sink2.traces.getLast?.map InferenceTrace.patient_case =
          sink2.cases.getLast?.map PatientCase.id ∧
        sink2.cases.getLast?.map PatientCase.id = some out.case_id) ∧
    (∀ e sink2,
        diagnose strat kb sink symptoms patient_id tid = (.error e, sink2) →
        sink2 = sink) := by
  by_cases hv : (validate_symptom_existence kb symptoms).1 = false
  · rw [diagnose, if_pos hv]
    constructor
    · intro out sink2 hout
      cases hout
    · intro e sink2 herr
      cases herr
      rfl
  · rw [diagnose, if_neg hv]
    cases hex : Strategy.execute strat kb symptoms tid with
    | error se =>
      cases se with
      | engine e =>
        constructor
        · intro out sink2 hout
          cases hout
        · intro e2 sink2 herr
          cases herr
          rfl
      | valueError msg =>
        constructor
        · intro out sink2 hout
          cases hout
        · intro e2 sink2 herr
          cases herr
          rfl
    | ok result =>
      constructor
      · intro out sink2 hout
        injection hout with h1 h2
        injection h1 with h3
        subst h2
        subst h3
        simp only [persist_result]
        refine ⟨List.dropLast_concat, List.dropLast_concat, by simp, by simp, ?_, ?_⟩
        · rw [List.getLast?_concat, List.getLast?_concat]
          rfl
        · rw [List.getLast?_concat]
          rfl
      · intro e sink2 herr
        cases herr

/-- Witness for C9 at concrete inputs: a successful run on the empty
sink appends exactly the one expected case and its linked trace. -/
theorem C9_persistence_atomic_witness :
    diagnose .forwardChaining kbC9 sink0 [1] ("PT-001") none =
      (.ok outC9, sinkAfterC9) ∧
    (sinkAfterC9.cases.dropLast = sink0.cases ∧
      sinkAfterC9.traces.dropLast = sink0.traces ∧
      sinkAfterC9.cases.length = sink0.cases.length + 1 ∧
      sinkAfterC9.traces.length = sink0.traces.length + 1 ∧
      sinkAfterC9.traces.getLast?.map InferenceTrace.patient_case =
        sinkAfterC9.cases.getLast?.map PatientCase.id ∧
      sinkAfterC9.cases.getLast?.map PatientCase.id = some outC9.case_id) :=
  ⟨by with_unfolding_all decide,
   (C9_persistence_atomic .forwardChaining kbC9 sink0 [1] ("PT-001") none).1
     outC9 sinkAfterC9 (by with_unfolding_all decide)⟩

/-- C5 (amended): the explanation text for a stored case is determined
by the stored case, the stored latest trace, and the strategy currently
configured on the service; for a fixed configured strategy any two sinks
agreeing on the stored case and latest trace yield identical output.
Contrary to the claim, the stored strategy_used tag does not select the
formatter: get_explanation formats through the currently configured
strategy (diagnosis_service.py line 251), so reading the same stored
case under differently configured strategies yields different texts. -/
theorem C5_explanation_determined (strat : Strategy) (sink1 sink2 : SinkState)
    (case_id : Nat)
    (hc : findCase sink1 case_id = findCase sink2 case_id)
    (ht : latestTrace sink1 case_id = latestTrace sink2 case_id) :
    get_explanation strat sink1 case_id = get_explanation strat sink2 case_id := by
  rw [get_explanation, get_explanation, hc, ht]

/-- Counterexample for C5 as stated: the same stored case and trace
(stored tag BACKWARD_CHAINING) produce two different successful texts
depending on which strategy is configured at call time, so the text is
not determined purely by the stored strategy tag and payload. -/
theorem C5_text_depends_on_configured_strategy :
    (get_explanation .forwardChaining sinkC5 1).toOption.isSome = true ∧
    (get_explanation .backwardChaining sinkC5 1).toOption.isSome = true ∧
    get_explanation .forwardChaining sinkC5 1 ≠
      get_explanation .backwardChaining sinkC5 1 := by
  refine ⟨?_, ?_, ?_⟩
  · with_unfolding_all decide
  · with_unfolding_all decide
  · with_unfolding_all decide

/-- Witness for the amended C5 at concrete inputs: two sinks agreeing on
the stored case 1 and its latest trace give identical texts under the
same configured strategy. -/
theorem C5_explanation_determined_witness :
    (findCase sinkC5 1 = findCase sinkC5b 1 ∧
      latestTrace sinkC5 1 = latestTrace sinkC5b 1) ∧
    get_explanation .backwardChaining sinkC5 1 =
      get_explanation .backwardChaining sinkC5b 1 :=
  ⟨⟨by with_unfolding_all decide, by with_unfolding_all decide⟩,
   C5_explanation_determined .backwardChaining sinkC5 sinkC5b 1
     (by with_unfolding_all decide) (by with_unfolding_all decide)⟩

/-- C10: the result reconstructed by get_explanation sets its
total_rules_evaluated field to the number of fired rules stored on the
trace, and the regenerated forward chaining report prints exactly that
number on its total-rules-evaluated line; concretely, a run on kbC10
evaluates two rules but persists one fired rule, and the reconstruction
for its case reports one. -/
theorem C10_total_is_fired_count (pcase : PatientCase) (tr : InferenceTrace) :
    (reconstructResult pcase tr).total_rules_evaluated = tr.rules_fired.size ∧
    (("total rules evaluated: ") ++ toString tr.rules_fired.size) ∈
      forwardReportLines (reconstructResult pcase tr) ∧
    ((forwardState kbC10 [1]).total_evaluated = 2 ∧
      (latestTrace (diagnose .forwardChaining kbC10 sink0 [1] ("PT-010") none).2 1).map
          (fun t => t.rules_fired.size) = some 1) := by
  refine ⟨rfl, ?_, by with_unfolding_all decide⟩
  simp [forwardReportLines, reconstructResult]

end Medidiagnose
